import Mathlib

/-!
Verification of the vma-socket wrapper layer: a shallow embedding of the pure
parts of `src/common.rs`, `src/udp.rs` and `src/tcp.rs` (option profiles,
address decoding, timeout conversion, result-code translation, structured
serialization), together with theorems settling the specification claims.

Machine integers are modelled as `Nat`/`Int`, with explicit two's-complement
truncation where the source performs an `as` cast.  Fallible operations return
`Except`; Rust methods that mutate `&mut self` and return a `Result` are
modelled as functions returning the updated value paired with the result.
The unchecked `mem::transmute::<i32, _>` of a result code is modelled as an
`Option`-valued function: `none` marks discriminants on which the cast has no
defined result.
-/

set_option maxRecDepth 4096

/-- Two's-complement truncation of a `u64`-ranged natural number to `c_int`
(`i32`), the semantics of the `as c_int` cast in `unixnano_to_ms`. -/
def u64_to_c_int (n : Nat) : Int :=
  let m := n % 4294967296
  if m < 2147483648 then (m : Int) else (m : Int) - 4294967296

/-- `common.rs::unixnano_to_ms`: `Some t` (nanoseconds, `u64`) becomes
`(t / 1_000_000) as c_int`; `None` becomes `-1` (wait indefinitely). -/
def unixnano_to_ms : Option Nat → Int
  | some t => u64_to_c_int (t / 1000000)
  | none => -1

/-- Modelled from the spec: `tcp.rs` imports `duration_to_ms` from
`crate::common`, but the function is absent from the sources under `src/`.
Per §5 ("a `None`/absent timeout means wait indefinitely; a zero timeout means
return immediately") and §6 ("a negative value means wait indefinitely; zero
means return immediately; a positive value is milliseconds to wait"), an
absent timeout maps to `-1` and a present timeout of `t` nanoseconds maps to
`t / 1_000_000` milliseconds. -/
def duration_to_ms : Option Nat → Int
  | some t => (t / 1000000 : Nat)
  | none => -1

/-- `common.rs::SockAddrIn`: the fixed-layout C address structure.  The
`sin_port` (`u16`) and `sin_addr` (`u32`) fields are modelled by their stored
bytes in memory order, so that "network byte order" is expressible directly. -/
structure SockAddrIn where
  sin_family : Nat
  sin_port : Nat × Nat
  sin_addr : Nat × Nat × Nat × Nat
  sin_zero : List Nat
deriving DecidableEq

/-- Big-endian read of two stored bytes (`u16::from_be`). -/
def fromBe16 (b : Nat × Nat) : Nat := b.1 * 256 + b.2

/-- Big-endian read of four stored bytes (`u32::from_be`). -/
def fromBe32 (b : Nat × Nat × Nat × Nat) : Nat :=
  ((b.1 * 256 + b.2.1) * 256 + b.2.2.1) * 256 + b.2.2.2

/-- `Ipv4Addr::from(u32)`: split a `u32` value into its four octets,
most significant first. -/
def ipv4FromU32 (n : Nat) : Nat × Nat × Nat × Nat :=
  (n / 16777216 % 256, n / 65536 % 256, n / 256 % 256, n % 256)

/-- Rust-side socket address: IPv4 octets and a port. -/
structure SocketAddr where
  ip : Nat × Nat × Nat × Nat
  port : Nat
deriving DecidableEq

/-- `common.rs::sockaddr_to_rust`: decode a C address structure into a Rust
`SocketAddr` via `u32::from_be` / `u16::from_be`. -/
def sockaddr_to_rust (s : SockAddrIn) : SocketAddr :=
  { ip := ipv4FromU32 (fromBe32 s.sin_addr), port := fromBe16 s.sin_port }

/-- Modelled from the spec: the AddressCodec encoding direction (§2, §6) —
store the given IPv4 octets and port into the fixed-layout structure in
network byte order (family `AF_INET = 2`, zero padding). -/
def encode_sockaddr (ip : Nat × Nat × Nat × Nat) (port : Nat) : SockAddrIn :=
  { sin_family := 2
    sin_port := (port / 256, port % 256)
    sin_addr := ip
    sin_zero := List.replicate 8 0 }

/-- `common.rs::VmaOptions`: the C-compatible options structure.  The
`cpu_cores` field is the 128-slot fixed-size array, modelled as a `List Int`
of length 128; `cpu_cores_count` keeps its `c_int` type. -/
structure VmaOptions where
  use_socketxtreme : Bool
  optimize_for_latency : Bool
  use_polling : Bool
  ring_count : Int
  buffer_size : Int
  enable_timestamps : Bool
  use_hugepages : Bool
  tx_bufs : Nat
  rx_bufs : Nat
  disable_poll_yield : Bool
  skip_os_select : Bool
  keep_qp_full : Bool
  cpu_cores : List Int
  cpu_cores_count : Int
deriving DecidableEq

/-- `impl Default for VmaOptions` in `common.rs`. -/
def VmaOptions.default : VmaOptions :=
  { use_socketxtreme := true
    optimize_for_latency := true
    use_polling := true
    ring_count := 4
    buffer_size := 65536
    enable_timestamps := true
    use_hugepages := true
    tx_bufs := 10000
    rx_bufs := 10000
    disable_poll_yield := true
    skip_os_select := true
    keep_qp_full := true
    cpu_cores := List.replicate 128 0
    cpu_cores_count := 0 }

/-- `VmaOptions::low_latency` in `common.rs`. -/
def VmaOptions.low_latency : VmaOptions :=
  { use_socketxtreme := true
    optimize_for_latency := true
    use_polling := true
    ring_count := 1
    buffer_size := 8192
    enable_timestamps := true
    use_hugepages := true
    tx_bufs := 32
    rx_bufs := 16
    disable_poll_yield := true
    skip_os_select := true
    keep_qp_full := true
    cpu_cores := List.replicate 128 0
    cpu_cores_count := 0 }

/-- `VmaOptions::high_throughput` in `common.rs`. -/
def VmaOptions.high_throughput : VmaOptions :=
  { use_socketxtreme := true
    optimize_for_latency := false
    use_polling := true
    ring_count := 4
    buffer_size := 65536
    enable_timestamps := false
    use_hugepages := true
    tx_bufs := 20000
    rx_bufs := 20000
    disable_poll_yield := false
    skip_os_select := true
    keep_qp_full := true
    cpu_cores := List.replicate 128 0
    cpu_cores_count := 0 }

/-- `VmaOptions::add_core`: fails once 128 cores are recorded, otherwise
writes `core` at index `cpu_cores_count` and increments the count.  The
`&mut self` mutation is modelled by returning the updated value together
with the `Result`; on failure the value is returned unchanged. -/
def VmaOptions.add_core (o : VmaOptions) (core : Int) :
    VmaOptions × Except String Unit :=
  if 128 ≤ o.cpu_cores_count then
    (o, Except.error "Maximum number of CPU cores reached")
  else
    ({ o with
        cpu_cores := o.cpu_cores.set o.cpu_cores_count.toNat core
        cpu_cores_count := o.cpu_cores_count + 1 },
      Except.ok ())

/-- `VmaOptions::clear_cores`: reset the count to 0 and zero the array. -/
def VmaOptions.clear_cores (o : VmaOptions) : VmaOptions :=
  { o with cpu_cores_count := 0, cpu_cores := List.replicate 128 0 }

/-- The `for` loop inside `VmaOptions::set_cores`: `add_core` each element in
order, stopping at the first failure (the `?` operator). -/
def VmaOptions.addAll : VmaOptions → List Int → VmaOptions × Except String Unit
  | o, [] => (o, Except.ok ())
  | o, c :: rest =>
    match o.add_core c with
    | (o2, Except.ok _) => VmaOptions.addAll o2 rest
    | (o2, Except.error e) => (o2, Except.error e)

/-- `VmaOptions::set_cores`: reject lists longer than 128, else clear and
re-add every element in order. -/
def VmaOptions.set_cores (o : VmaOptions) (cores : List Int) :
    VmaOptions × Except String Unit :=
  if 128 < cores.length then
    (o, Except.error "Too many CPU cores specified")
  else
    VmaOptions.addAll o.clear_cores cores

/-- `VmaOptions::get_cores`: the slice `cpu_cores[0..cpu_cores_count]`. -/
def VmaOptions.get_cores (o : VmaOptions) : List Int :=
  o.cpu_cores.take o.cpu_cores_count.toNat

/-- `udp.rs::UdpResult`: result codes of the C UDP functions
(discriminants 0 through -10). -/
inductive UdpResult where
  | UdpSuccess
  | UdpErrorSocketCreate
  | UdpErrorSocketOption
  | UdpErrorBind
  | UdpErrorConnect
  | UdpErrorSend
  | UdpErrorRecv
  | UdpErrorTimeout
  | UdpErrorInvalidParam
  | UdpErrorNotInitialized
  | UdpErrorClosed
deriving DecidableEq

/-- Semantics of `mem::transmute::<i32, UdpResult>`: defined exactly on the
declared discriminants `0 .. -10`; `none` marks the codes on which the
unchecked cast has no defined result. -/
def transmuteUdpResult (c : Int) : Option UdpResult :=
  if c = 0 then some UdpResult.UdpSuccess
  else if c = -1 then some UdpResult.UdpErrorSocketCreate
  else if c = -2 then some UdpResult.UdpErrorSocketOption
  else if c = -3 then some UdpResult.UdpErrorBind
  else if c = -4 then some UdpResult.UdpErrorConnect
  else if c = -5 then some UdpResult.UdpErrorSend
  else if c = -6 then some UdpResult.UdpErrorRecv
  else if c = -7 then some UdpResult.UdpErrorTimeout
  else if c = -8 then some UdpResult.UdpErrorInvalidParam
  else if c = -9 then some UdpResult.UdpErrorNotInitialized
  else if c = -10 then some UdpResult.UdpErrorClosed
  else none

/-- `std::io::ErrorKind` members used by `impl From<UdpResult> for io::Error`. -/
inductive ErrorKind where
  | other
  | connectionRefused
  | invalidInput
  | addrInUse
  | brokenPipe
  | connectionReset
  | timedOut
  | notConnected
  | connectionAborted
deriving DecidableEq

/-- Model of `std::io::Error` as built by the `From` impl: a kind plus a
message. -/
structure IoError where
  kind : ErrorKind
  msg : String
deriving DecidableEq

/-- `impl From<UdpResult> for std::io::Error` in `udp.rs`. -/
def udpResultToIoError : UdpResult → IoError
  | UdpResult.UdpSuccess => ⟨ErrorKind.other, "Unexpected success"⟩
  | UdpResult.UdpErrorSocketCreate =>
      ⟨ErrorKind.connectionRefused, "Socket creation failed"⟩
  | UdpResult.UdpErrorSocketOption =>
      ⟨ErrorKind.invalidInput, "Socket option error"⟩
  | UdpResult.UdpErrorBind => ⟨ErrorKind.addrInUse, "Bind failed"⟩
  | UdpResult.UdpErrorConnect => ⟨ErrorKind.connectionRefused, "Connect failed"⟩
  | UdpResult.UdpErrorSend => ⟨ErrorKind.brokenPipe, "Send failed"⟩
  | UdpResult.UdpErrorRecv => ⟨ErrorKind.connectionReset, "Receive failed"⟩
  | UdpResult.UdpErrorTimeout => ⟨ErrorKind.timedOut, "Operation timed out"⟩
  | UdpResult.UdpErrorInvalidParam =>
      ⟨ErrorKind.invalidInput, "Invalid parameter"⟩
  | UdpResult.UdpErrorNotInitialized =>
      ⟨ErrorKind.notConnected, "Not initialized"⟩
  | UdpResult.UdpErrorClosed => ⟨ErrorKind.connectionAborted, "Socket closed"⟩

/-- `udp.rs::Packet`: an owned payload copy, the resolved source address and
the receive timestamp. -/
structure Packet where
  data : List Nat
  src_addr : SocketAddr
  timestamp : Nat
deriving DecidableEq

/-- The translation `match` in `VmaUdpSocket::recv`, applied to the inner
`UdpSocketWrapper::recv` result: a native timeout becomes `Ok(0)`, any other
error is converted through the `From` impl. -/
def VmaUdpSocket.recv_result (inner : Except UdpResult Nat) :
    Except IoError Nat :=
  match inner with
  | Except.ok bytes => Except.ok bytes
  | Except.error UdpResult.UdpErrorTimeout => Except.ok 0
  | Except.error e => Except.error (udpResultToIoError e)

/-- The translation `match` in `VmaUdpSocket::recv_from`, applied to the inner
`UdpSocketWrapper::recv_from` result: a native timeout becomes `Ok(None)`, a
received packet becomes `Ok(Some(packet))`, any other error is converted. -/
def VmaUdpSocket.recv_from_result (inner : Except UdpResult Packet) :
    Except IoError (Option Packet) :=
  match inner with
  | Except.ok packet => Except.ok (some packet)
  | Except.error UdpResult.UdpErrorTimeout => Except.ok none
  | Except.error e => Except.error (udpResultToIoError e)

/-- `tcp.rs::TcpResult`: result codes of the C TCP functions
(discriminants 0 through -15). -/
inductive TcpResult where
  | TcpSuccess
  | TcpErrorSocketCreate
  | TcpErrorSocketOption
  | TcpErrorBind
  | TcpErrorListen
  | TcpErrorAccept
  | TcpErrorConnect
  | TcpErrorReconnect
  | TcpErrorSend
  | TcpErrorRecv
  | TcpErrorTimeout
  | TcpErrorInvalidParam
  | TcpErrorNotInitialized
  | TcpErrorClosed
  | TcpErrorWouldBlock
  | TcpErrorAlreadyConnected
deriving DecidableEq

/-- Semantics of `mem::transmute::<i32, TcpResult>`: defined exactly on the
declared discriminants `0 .. -15`; `none` marks the codes on which the
unchecked cast has no defined result. -/
def transmuteTcpResult (c : Int) : Option TcpResult :=
  if c = 0 then some TcpResult.TcpSuccess
  else if c = -1 then some TcpResult.TcpErrorSocketCreate
  else if c = -2 then some TcpResult.TcpErrorSocketOption
  else if c = -3 then some TcpResult.TcpErrorBind
  else if c = -4 then some TcpResult.TcpErrorListen
  else if c = -5 then some TcpResult.TcpErrorAccept
  else if c = -6 then some TcpResult.TcpErrorConnect
  else if c = -7 then some TcpResult.TcpErrorReconnect
  else if c = -8 then some TcpResult.TcpErrorSend
  else if c = -9 then some TcpResult.TcpErrorRecv
  else if c = -10 then some TcpResult.TcpErrorTimeout
  else if c = -11 then some TcpResult.TcpErrorInvalidParam
  else if c = -12 then some TcpResult.TcpErrorNotInitialized
  else if c = -13 then some TcpResult.TcpErrorClosed
  else if c = -14 then some TcpResult.TcpErrorWouldBlock
  else if c = -15 then some TcpResult.TcpErrorAlreadyConnected
  else none

/-- Debug names of the `TcpResult` variants, as produced by the `{:?}`
formatting used in the `VmaTcpSocket` error messages. -/
def tcpResultName : TcpResult → String
  | TcpResult.TcpSuccess => "TcpSuccess"
  | TcpResult.TcpErrorSocketCreate => "TcpErrorSocketCreate"
  | TcpResult.TcpErrorSocketOption => "TcpErrorSocketOption"
  | TcpResult.TcpErrorBind => "TcpErrorBind"
  | TcpResult.TcpErrorListen => "TcpErrorListen"
  | TcpResult.TcpErrorAccept => "TcpErrorAccept"
  | TcpResult.TcpErrorConnect => "TcpErrorConnect"
  | TcpResult.TcpErrorReconnect => "TcpErrorReconnect"
  | TcpResult.TcpErrorSend => "TcpErrorSend"
  | TcpResult.TcpErrorRecv => "TcpErrorRecv"
  | TcpResult.TcpErrorTimeout => "TcpErrorTimeout"
  | TcpResult.TcpErrorInvalidParam => "TcpErrorInvalidParam"
  | TcpResult.TcpErrorNotInitialized => "TcpErrorNotInitialized"
  | TcpResult.TcpErrorClosed => "TcpErrorClosed"
  | TcpResult.TcpErrorWouldBlock => "TcpErrorWouldBlock"
  | TcpResult.TcpErrorAlreadyConnected => "TcpErrorAlreadyConnected"

/-- `tcp.rs::TcpClient`: the C client-connection structure. -/
structure TcpClient where
  socket_fd : Int
  addr : SockAddrIn
  rx_bytes : Nat
  tx_bytes : Nat
deriving DecidableEq

/-- `tcp.rs::Client`: the safe wrapper around an accepted connection, with
the peer address resolved at construction. -/
structure Client where
  inner : TcpClient
  address : SocketAddr
deriving DecidableEq

/-- `Client::new` in `tcp.rs`: resolve the peer address via
`sockaddr_to_rust`. -/
def Client.new (c : TcpClient) : Client :=
  { inner := c, address := sockaddr_to_rust c.addr }

/-- `Client::recv` in `tcp.rs`, as a function of the native
`tcp_socket_recv_from_client` result code and the received byte count: a
success code yields `Ok(bytes)`, any other code is transmuted unchecked into
a `TcpResult` error — there is no benign translation at this level. -/
def Client.recv_result (code : Int) (bytes : Nat) :
    Option (Except TcpResult Nat) :=
  if code = 0 then some (Except.ok bytes)
  else (transmuteTcpResult code).map Except.error

/-- The translation `match` in `VmaTcpSocket::connect`: success becomes
`Ok(true)`, a native timeout becomes `Ok(false)`, anything else is an error
message. -/
def VmaTcpSocket.connect_result (inner : Except TcpResult Unit) :
    Except String Bool :=
  match inner with
  | Except.ok _ => Except.ok true
  | Except.error TcpResult.TcpErrorTimeout => Except.ok false
  | Except.error e => Except.error ("Failed to connect: " ++ tcpResultName e)

/-- The translation `match` in `VmaTcpSocket::accept`: success becomes
`Ok(Some(client))`, a native timeout becomes `Ok(None)`, anything else is an
error message. -/
def VmaTcpSocket.accept_result (inner : Except TcpResult Client) :
    Except String (Option Client) :=
  match inner with
  | Except.ok client => Except.ok (some client)
  | Except.error TcpResult.TcpErrorTimeout => Except.ok none
  | Except.error e => Except.error ("Failed to accept: " ++ tcpResultName e)

/-- The translation `match` in `VmaTcpSocket::try_reconnect`: success becomes
`Ok(true)`, a native timeout or reconnect failure becomes `Ok(false)`,
anything else is an error message. -/
def VmaTcpSocket.reconnect_result (inner : Except TcpResult Unit) :
    Except String Bool :=
  match inner with
  | Except.ok _ => Except.ok true
  | Except.error TcpResult.TcpErrorTimeout => Except.ok false
  | Except.error TcpResult.TcpErrorReconnect => Except.ok false
  | Except.error e => Except.error ("Failed to reconnect: " ++ tcpResultName e)

/-- The translation `match` in `VmaTcpSocket::send`: a native would-block
becomes `Ok(0)`, anything else non-success (including connection-closed) is
an error message. -/
def VmaTcpSocket.send_result (inner : Except TcpResult Nat) :
    Except String Nat :=
  match inner with
  | Except.ok bytes => Except.ok bytes
  | Except.error TcpResult.TcpErrorWouldBlock => Except.ok 0
  | Except.error e => Except.error ("Failed to send: " ++ tcpResultName e)

/-- The translation `match` in `VmaTcpSocket::recv`: a native timeout or a
closed connection becomes `Ok(0)` (EOF-like), anything else non-success is an
error message. -/
def VmaTcpSocket.recv_result (inner : Except TcpResult Nat) :
    Except String Nat :=
  match inner with
  | Except.ok bytes => Except.ok bytes
  | Except.error TcpResult.TcpErrorTimeout => Except.ok 0
  | Except.error TcpResult.TcpErrorClosed => Except.ok 0
  | Except.error e => Except.error ("Failed to receive: " ++ tcpResultName e)

/-- The structured encoding produced by `impl Serialize for VmaOptions` in
`common.rs`: the twelve scalar fields, the active slice of the core array
(`cpu_cores[0..cpu_cores_count]`), and the count. -/
structure SerializedVmaOptions where
  use_socketxtreme : Bool
  optimize_for_latency : Bool
  use_polling : Bool
  ring_count : Int
  buffer_size : Int
  enable_timestamps : Bool
  use_hugepages : Bool
  tx_bufs : Nat
  rx_bufs : Nat
  disable_poll_yield : Bool
  skip_os_select : Bool
  keep_qp_full : Bool
  cpu_cores : List Int
  cpu_cores_count : Int
deriving DecidableEq

/-- `impl Serialize for VmaOptions`: serialize every scalar field and only
the used portion of the core array. -/
def serializeVmaOptions (o : VmaOptions) : SerializedVmaOptions :=
  { use_socketxtreme := o.use_socketxtreme
    optimize_for_latency := o.optimize_for_latency
    use_polling := o.use_polling
    ring_count := o.ring_count
    buffer_size := o.buffer_size
    enable_timestamps := o.enable_timestamps
    use_hugepages := o.use_hugepages
    tx_bufs := o.tx_bufs
    rx_bufs := o.rx_bufs
    disable_poll_yield := o.disable_poll_yield
    skip_os_select := o.skip_os_select
    keep_qp_full := o.keep_qp_full
    cpu_cores := o.cpu_cores.take o.cpu_cores_count.toNat
    cpu_cores_count := o.cpu_cores_count }

/-- The `for (i, &core) in cores.iter().enumerate()` loop of the
deserializer: write the decoded core list into the array starting at the
given index. -/
def writeCoresFrom : List Int → Nat → List Int → List Int
  | arr, _, [] => arr
  | arr, i, c :: rest => writeCoresFrom (arr.set i c) (i + 1) rest

/-- `impl Deserialize for VmaOptions` (the `visit_map` visitor): start from
`VmaOptions::default()`, assign every present field, then — if a core list
was decoded — reject more than 128 entries, otherwise override the count
with the list length and write the entries into the (still zeroed) array. -/
def deserializeVmaOptions (s : SerializedVmaOptions) : Except String VmaOptions :=
  let o :=
    { VmaOptions.default with
        use_socketxtreme := s.use_socketxtreme
        optimize_for_latency := s.optimize_for_latency
        use_polling := s.use_polling
        ring_count := s.ring_count
        buffer_size := s.buffer_size
        enable_timestamps := s.enable_timestamps
        use_hugepages := s.use_hugepages
        tx_bufs := s.tx_bufs
        rx_bufs := s.rx_bufs
        disable_poll_yield := s.disable_poll_yield
        skip_os_select := s.skip_os_select
        keep_qp_full := s.keep_qp_full
        cpu_cores_count := s.cpu_cores_count }
  if 128 < s.cpu_cores.length then
    Except.error ("Too many CPU cores: " ++ toString s.cpu_cores.length ++ " > 128")
  else
    Except.ok
      { o with
          cpu_cores_count := (s.cpu_cores.length : Int)
          cpu_cores := writeCoresFrom o.cpu_cores 0 s.cpu_cores }

/-- The option-profile values reachable through the public constructors and
core operations of `VmaOptions` (`default`, `low_latency`, `high_throughput`,
`add_core`, `set_cores`, `clear_cores`); a failing operation returns the
value unchanged, so closing under the returned value covers both outcomes. -/
inductive Reachable : VmaOptions → Prop where
  | default : Reachable VmaOptions.default
  | low_latency : Reachable VmaOptions.low_latency
  | high_throughput : Reachable VmaOptions.high_throughput
  | add_core (o : VmaOptions) (c : Int) :
      Reachable o → Reachable (o.add_core c).1
  | set_cores (o : VmaOptions) (cs : List Int) :
      Reachable o → Reachable (o.set_cores cs).1
  | clear_cores (o : VmaOptions) :
      Reachable o → Reachable o.clear_cores

/-- Like `Reachable`, but every core index handed to `add_core` or
`set_cores` is nonnegative. -/
inductive ReachableNN : VmaOptions → Prop where
  | default : ReachableNN VmaOptions.default
  | low_latency : ReachableNN VmaOptions.low_latency
  | high_throughput : ReachableNN VmaOptions.high_throughput
  | add_core (o : VmaOptions) (c : Int) :
      0 ≤ c → ReachableNN o → ReachableNN (o.add_core c).1
  | set_cores (o : VmaOptions) (cs : List Int) :
      (∀ c ∈ cs, 0 ≤ c) → ReachableNN o → ReachableNN (o.set_cores cs).1
  | clear_cores (o : VmaOptions) :
      ReachableNN o → ReachableNN o.clear_cores

/-- Structural well-formedness of an option profile: the count stays within
the 128-slot array, the array keeps its fixed size, and every slot past the
count still holds its zero initializer. -/
def VmaOptionsWF (o : VmaOptions) : Prop :=
  0 ≤ o.cpu_cores_count ∧ o.cpu_cores_count ≤ 128 ∧
    o.cpu_cores.length = 128 ∧
    ∀ c ∈ o.cpu_cores.drop o.cpu_cores_count.toNat, c = 0

/-- Every core recorded in the active slice of the profile is nonnegative. -/
def CoresNN (o : VmaOptions) : Prop := ∀ c ∈ o.get_cores, 0 ≤ c

theorem list_take_set_succ :
    ∀ (l : List Int) (n : Nat) (c : Int), n < l.length →
      (l.set n c).take (n + 1) = l.take n ++ [c]
  | [], n, c, h => by simp at h
  | x :: xs, 0, c, _ => by simp
  | x :: xs, n + 1, c, h => by
    have ih := list_take_set_succ xs n c (by simpa using Nat.lt_of_succ_lt_succ h)
    simp [List.set, List.take_succ_cons, ih]

theorem list_drop_set_of_lt :
    ∀ (l : List Int) (i n : Nat) (c : Int), i < n →
      (l.set i c).drop n = l.drop n
  | [], _, _, _, _ => by simp
  | x :: xs, 0, n, c, h => by
    obtain ⟨m, rfl⟩ := Nat.exists_eq_add_of_lt h
    simp [List.set]
  | x :: xs, i + 1, n, c, h => by
    obtain ⟨m, rfl⟩ := Nat.exists_eq_add_of_lt h
    have ih := list_drop_set_of_lt xs i (i + m + 1) c (by omega)
    have harith : i + 1 + m + 1 = (i + m + 1) + 1 := by omega
    rw [harith]
    simpa [List.set] using ih

theorem list_drop_replicate :
    ∀ (k m : Nat), (List.replicate m (0 : Int)).drop k = List.replicate (m - k) 0
  | 0, m => by simp
  | k + 1, 0 => by simp
  | k + 1, m + 1 => by
    simp [List.replicate_succ, list_drop_replicate k m]

theorem list_eq_replicate_zero :
    ∀ (l : List Int), (∀ c ∈ l, c = 0) → l = List.replicate l.length 0
  | [], _ => rfl
  | x :: xs, h => by
    have hx : x = 0 := h x (by simp)
    have ih := list_eq_replicate_zero xs (fun c hc => h c (by simp [hc]))
    simp [List.replicate_succ, hx, ← ih]

theorem add_core_ge (o : VmaOptions) (c : Int) (h : 128 ≤ o.cpu_cores_count) :
    o.add_core c = (o, Except.error "Maximum number of CPU cores reached") := by
  simp [VmaOptions.add_core, h]

theorem add_core_lt (o : VmaOptions) (c : Int) (h : ¬ 128 ≤ o.cpu_cores_count) :
    o.add_core c =
      ({ o with
          cpu_cores := o.cpu_cores.set o.cpu_cores_count.toNat c
          cpu_cores_count := o.cpu_cores_count + 1 }, Except.ok ()) := by
  simp [VmaOptions.add_core, h]

theorem add_core_wf (o : VmaOptions) (c : Int) (h : VmaOptionsWF o) :
    VmaOptionsWF (o.add_core c).1 := by
  obtain ⟨h0, h128, hlen, hzero⟩ := h
  by_cases hfull : 128 ≤ o.cpu_cores_count
  · rw [add_core_ge o c hfull]
    exact ⟨h0, h128, hlen, hzero⟩
  · rw [add_core_lt o c hfull]
    have htn : (o.cpu_cores_count + 1).toNat = o.cpu_cores_count.toNat + 1 := by
      omega
    refine ⟨by dsimp only; omega, by dsimp only; omega, ?_, ?_⟩
    · dsimp only
      simp [hlen]
    · intro x hx
      dsimp only at hx
      rw [htn, list_drop_set_of_lt o.cpu_cores o.cpu_cores_count.toNat
        (o.cpu_cores_count.toNat + 1) c (by omega)] at hx
      have hdd : o.cpu_cores.drop (o.cpu_cores_count.toNat + 1) =
          (o.cpu_cores.drop o.cpu_cores_count.toNat).drop 1 := by
        rw [List.drop_drop]
      rw [hdd] at hx
      exact hzero x (List.drop_subset 1 _ hx)

theorem clear_cores_wf (o : VmaOptions) : VmaOptionsWF o.clear_cores := by
  refine ⟨by simp [VmaOptions.clear_cores], by simp [VmaOptions.clear_cores],
    by simp [VmaOptions.clear_cores], ?_⟩
  intro x hx
  simp only [VmaOptions.clear_cores, Int.toNat_zero, List.drop_zero] at hx
  exact List.eq_of_mem_replicate hx

theorem addAll_wf :
    ∀ (cs : List Int) (o : VmaOptions), VmaOptionsWF o →
      VmaOptionsWF (VmaOptions.addAll o cs).1
  | [], o, h => h
  | c :: rest, o, h => by
    have hstep := add_core_wf o c h
    rcases hadd : o.add_core c with ⟨o2, r⟩
    rw [hadd] at hstep
    cases r with
    | ok u =>
      have := addAll_wf rest o2 hstep
      simpa [VmaOptions.addAll, hadd] using this
    | error e =>
      simp [VmaOptions.addAll, hadd]
      exact hstep

theorem set_cores_wf (o : VmaOptions) (cs : List Int) (h : VmaOptionsWF o) :
    VmaOptionsWF (o.set_cores cs).1 := by
  by_cases hlen : 128 < cs.length
  · simpa [VmaOptions.set_cores, hlen] using h
  · simpa [VmaOptions.set_cores, hlen] using
      addAll_wf cs o.clear_cores (clear_cores_wf o)

theorem default_wf : VmaOptionsWF VmaOptions.default := by
  refine ⟨by simp [VmaOptions.default], by simp [VmaOptions.default],
    by simp [VmaOptions.default], ?_⟩
  intro x hx
  simp only [VmaOptions.default, Int.toNat_zero, List.drop_zero] at hx
  exact List.eq_of_mem_replicate hx

theorem low_latency_wf : VmaOptionsWF VmaOptions.low_latency := by
  refine ⟨by simp [VmaOptions.low_latency], by simp [VmaOptions.low_latency],
    by simp [VmaOptions.low_latency], ?_⟩
  intro x hx
  simp only [VmaOptions.low_latency, Int.toNat_zero, List.drop_zero] at hx
  exact List.eq_of_mem_replicate hx

theorem high_throughput_wf : VmaOptionsWF VmaOptions.high_throughput := by
  refine ⟨by simp [VmaOptions.high_throughput],
    by simp [VmaOptions.high_throughput],
    by simp [VmaOptions.high_throughput], ?_⟩
  intro x hx
  simp only [VmaOptions.high_throughput, Int.toNat_zero, List.drop_zero] at hx
  exact List.eq_of_mem_replicate hx

theorem reachable_wf (o : VmaOptions) (h : Reachable o) : VmaOptionsWF o := by
  induction h with
  | default => exact default_wf
  | low_latency => exact low_latency_wf
  | high_throughput => exact high_throughput_wf
  | add_core o c _ ih => exact add_core_wf o c ih
  | set_cores o cs _ ih => exact set_cores_wf o cs ih
  | clear_cores o _ => exact clear_cores_wf o

theorem get_cores_add_core_lt (o : VmaOptions) (c : Int)
    (hfull : ¬ 128 ≤ o.cpu_cores_count) (hwf : VmaOptionsWF o) :
    (o.add_core c).1.get_cores = o.get_cores ++ [c] := by
  obtain ⟨h0, _, hlen, _⟩ := hwf
  rw [add_core_lt o c hfull]
  have htn : (o.cpu_cores_count + 1).toNat = o.cpu_cores_count.toNat + 1 := by
    omega
  have hidx : o.cpu_cores_count.toNat < o.cpu_cores.length := by omega
  simp only [VmaOptions.get_cores, htn]
  exact list_take_set_succ o.cpu_cores o.cpu_cores_count.toNat c hidx

theorem add_core_nn (o : VmaOptions) (c : Int) (hc : 0 ≤ c)
    (hwf : VmaOptionsWF o) (h : CoresNN o) : CoresNN (o.add_core c).1 := by
  by_cases hfull : 128 ≤ o.cpu_cores_count
  · rw [add_core_ge o c hfull]
    exact h
  · intro x hx
    rw [get_cores_add_core_lt o c hfull hwf] at hx
    rcases List.mem_append.1 hx with hx | hx
    · exact h x hx
    · simp at hx
      omega

theorem clear_cores_nn (o : VmaOptions) : CoresNN o.clear_cores := by
  intro x hx
  simp [VmaOptions.clear_cores, VmaOptions.get_cores] at hx

theorem addAll_nn :
    ∀ (cs : List Int) (o : VmaOptions), (∀ c ∈ cs, 0 ≤ c) → VmaOptionsWF o →
      CoresNN o → CoresNN (VmaOptions.addAll o cs).1
  | [], o, _, _, h => h
  | c :: rest, o, hcs, hwf, h => by
    have hc : 0 ≤ c := hcs c (by simp)
    have hstepwf := add_core_wf o c hwf
    have hstepnn := add_core_nn o c hc hwf h
    rcases hadd : o.add_core c with ⟨o2, r⟩
    rw [hadd] at hstepwf hstepnn
    cases r with
    | ok u =>
      have := addAll_nn rest o2 (fun x hx => hcs x (by simp [hx])) hstepwf hstepnn
      simpa [VmaOptions.addAll, hadd] using this
    | error e =>
      simp [VmaOptions.addAll, hadd]
      exact hstepnn

theorem set_cores_nn (o : VmaOptions) (cs : List Int)
    (hcs : ∀ c ∈ cs, 0 ≤ c) (h : CoresNN o) : CoresNN (o.set_cores cs).1 := by
  by_cases hlen : 128 < cs.length
  · simpa [VmaOptions.set_cores, hlen] using h
  · simpa [VmaOptions.set_cores, hlen] using
      addAll_nn cs o.clear_cores hcs (clear_cores_wf o) (clear_cores_nn o)

theorem reachableNN_reachable (o : VmaOptions) (h : ReachableNN o) :
    Reachable o := by
  induction h with
  | default => exact Reachable.default
  | low_latency => exact Reachable.low_latency
  | high_throughput => exact Reachable.high_throughput
  | add_core o c _ _ ih => exact Reachable.add_core o c ih
  | set_cores o cs _ _ ih => exact Reachable.set_cores o cs ih
  | clear_cores o _ ih => exact Reachable.clear_cores o ih

theorem reachableNN_nn (o : VmaOptions) (h : ReachableNN o) : CoresNN o := by
  induction h with
  | default =>
      intro x hx
      simp [VmaOptions.default, VmaOptions.get_cores] at hx
  | low_latency =>
      intro x hx
      simp [VmaOptions.low_latency, VmaOptions.get_cores] at hx
  | high_throughput =>
      intro x hx
      simp [VmaOptions.high_throughput, VmaOptions.get_cores] at hx
  | add_core o c hc hr ih =>
      exact add_core_nn o c hc (reachable_wf o (reachableNN_reachable o hr)) ih
  | set_cores o cs hcs hr ih => exact set_cores_nn o cs hcs ih
  | clear_cores o _ => exact clear_cores_nn o

theorem addAll_ok :
    ∀ (cs : List Int) (o : VmaOptions), o.cpu_cores.length = 128 →
      0 ≤ o.cpu_cores_count → o.cpu_cores_count.toNat + cs.length ≤ 128 →
      (VmaOptions.addAll o cs).2 = Except.ok () ∧
        (VmaOptions.addAll o cs).1.get_cores = o.get_cores ++ cs
  | [], o, _, _, _ => by simp [VmaOptions.addAll]
  | c :: rest, o, hlen, h0, hroom => by
    have hfull : ¬ 128 ≤ o.cpu_cores_count := by
      simp at hroom
      omega
    have hidx : o.cpu_cores_count.toNat < o.cpu_cores.length := by
      simp at hroom
      omega
    have htn : (o.cpu_cores_count + 1).toNat = o.cpu_cores_count.toNat + 1 := by
      omega
    have hadd := add_core_lt o c hfull
    have ih := addAll_ok rest
      ({ o with
          cpu_cores := o.cpu_cores.set o.cpu_cores_count.toNat c
          cpu_cores_count := o.cpu_cores_count + 1 })
      (by simp [hlen]) (by dsimp only; omega)
      (by
        dsimp only
        rw [htn]
        simp at hroom ⊢
        omega)
    obtain ⟨ihok, ihcores⟩ := ih
    have hgc : ({ o with
        cpu_cores := o.cpu_cores.set o.cpu_cores_count.toNat c
        cpu_cores_count := o.cpu_cores_count + 1 } : VmaOptions).get_cores =
        o.get_cores ++ [c] := by
      simp only [VmaOptions.get_cores, htn]
      exact list_take_set_succ o.cpu_cores o.cpu_cores_count.toNat c hidx
    rw [hgc] at ihcores
    refine ⟨?_, ?_⟩
    · simp only [VmaOptions.addAll, hadd]
      exact ihok
    · simp only [VmaOptions.addAll, hadd]
      rw [ihcores]
      simp

theorem writeCoresFrom_spec :
    ∀ (cs arr : List Int) (i : Nat), i + cs.length ≤ arr.length →
      writeCoresFrom arr i cs = arr.take i ++ cs ++ arr.drop (i + cs.length)
  | [], arr, i, _ => by
    simp [writeCoresFrom, List.take_append_drop]
  | c :: rest, arr, i, h => by
    have hi : i < arr.length := by
      simp at h
      omega
    have ih := writeCoresFrom_spec rest (arr.set i c) (i + 1)
      (by simp; simp at h; omega)
    simp only [writeCoresFrom]
    rw [ih]
    rw [list_take_set_succ arr i c hi]
    rw [list_drop_set_of_lt arr i (i + 1 + rest.length) c (by omega)]
    have harith : i + 1 + rest.length = i + (rest.length + 1) := by omega
    simp [harith]

/-- C1: the high-level `VmaTcpSocket` translates native results exactly per
the §4.4 policy: `connect` turns a native timeout into `Ok(false)`, `accept`
into `Ok(None)`, `send` turns a native would-block into `Ok(0)`, `recv` turns
a native timeout or connection-closed into `Ok(0)`, `try_reconnect` turns a
native timeout or reconnect failure into `Ok(false)`, and every other
non-success native code (including connection-closed on `send`) is surfaced
to the caller as an error. -/
theorem spec_C1_tcp_error_translation :
    (∀ e : TcpResult, VmaTcpSocket.connect_result (Except.error e) =
      if e = TcpResult.TcpErrorTimeout then Except.ok false
      else Except.error ("Failed to connect: " ++ tcpResultName e)) ∧
    (∀ e : TcpResult, VmaTcpSocket.accept_result (Except.error e) =
      if e = TcpResult.TcpErrorTimeout then Except.ok none
      else Except.error ("Failed to accept: " ++ tcpResultName e)) ∧
    (∀ e : TcpResult, VmaTcpSocket.send_result (Except.error e) =
      if e = TcpResult.TcpErrorWouldBlock then Except.ok 0
      else Except.error ("Failed to send: " ++ tcpResultName e)) ∧
    (∀ e : TcpResult, VmaTcpSocket.recv_result (Except.error e) =
      if e = TcpResult.TcpErrorTimeout ∨ e = TcpResult.TcpErrorClosed then
        Except.ok 0
      else Except.error ("Failed to receive: " ++ tcpResultName e)) ∧
    (∀ e : TcpResult, VmaTcpSocket.reconnect_result (Except.error e) =
      if e = TcpResult.TcpErrorTimeout ∨ e = TcpResult.TcpErrorReconnect then
        Except.ok false
      else Except.error ("Failed to reconnect: " ++ tcpResultName e)) := by
  refine ⟨?_, ?_, ?_, ?_, ?_⟩ <;> intro e <;> cases e <;> rfl

/-- C2 counterexample: `Client::recv` on an accepted client does NOT behave
like the endpoint's own recv — a native timeout (code `-10`, with 0 bytes
received) surfaces as `Err(TcpErrorTimeout)`, not as the successful zero-byte
result the claim demands; likewise connection-closed (code `-13`). -/
theorem spec_C2_counterexample :
    Client.recv_result (-10) 0 =
        some (Except.error TcpResult.TcpErrorTimeout) ∧
      Client.recv_result (-10) 0 ≠ some (Except.ok 0) ∧
      Client.recv_result (-13) 0 =
        some (Except.error TcpResult.TcpErrorClosed) := by
  refine ⟨rfl, ?_, rfl⟩
  intro h
  rw [show Client.recv_result (-10) 0 =
    some (Except.error TcpResult.TcpErrorTimeout) from rfl] at h
  exact Except.noConfusion (Option.some.inj h)

/-- C2 amended: `Client::recv` performs no benign translation at all — a
native timeout or connection-closed outcome is returned to the caller as the
corresponding typed error (`TcpErrorTimeout` / `TcpErrorClosed`), and only a
native success code yields `Ok(bytes)`. -/
theorem spec_C2_client_recv_untranslated :
    ∀ bytes : Nat,
      Client.recv_result (-10) bytes =
          some (Except.error TcpResult.TcpErrorTimeout) ∧
        Client.recv_result (-13) bytes =
          some (Except.error TcpResult.TcpErrorClosed) ∧
        Client.recv_result 0 bytes = some (Except.ok bytes) :=
  fun _ => ⟨rfl, rfl, rfl⟩

/-- C3: the high-level `VmaUdpSocket` reports a native timeout as success —
`recv` yields `Ok(0)` bytes and `recv_from` yields `Ok(None)` — while every
other non-success native code is returned as an error; successful inner
results pass through unchanged. -/
theorem spec_C3_udp_timeout_translation :
    (∀ e : UdpResult, VmaUdpSocket.recv_result (Except.error e) =
      if e = UdpResult.UdpErrorTimeout then Except.ok 0
      else Except.error (udpResultToIoError e)) ∧
    (∀ e : UdpResult, VmaUdpSocket.recv_from_result (Except.error e) =
      if e = UdpResult.UdpErrorTimeout then Except.ok none
      else Except.error (udpResultToIoError e)) ∧
    (∀ n : Nat, VmaUdpSocket.recv_result (Except.ok n) = Except.ok n) ∧
    (∀ p : Packet,
      VmaUdpSocket.recv_from_result (Except.ok p) = Except.ok (some p)) := by
  refine ⟨?_, ?_, fun n => rfl, fun p => rfl⟩ <;> intro e <;> cases e <;> rfl

/-- C5: the three preset constructors produce exactly the advertised field
values — `default()` accelerated mode, latency optimization and polling on,
4 rings, 65536-byte buffers, timestamps and hugepages on, 10000/10000
buffers, poll-yield disabled, OS-select skipped, queue pair kept full, empty
core list; `low_latency()` differs with 1 ring, 8192-byte buffers and 32/16
buffers, all latency flags enabled; `high_throughput()` has latency
optimization off, multiple (4) rings, 65536-byte buffers, timestamps off,
20000/20000 buffers and yielding allowed. -/
theorem spec_C5_preset_values :
    (VmaOptions.default.use_socketxtreme = true ∧
      VmaOptions.default.optimize_for_latency = true ∧
      VmaOptions.default.use_polling = true ∧
      VmaOptions.default.ring_count = 4 ∧
      VmaOptions.default.buffer_size = 65536 ∧
      VmaOptions.default.enable_timestamps = true ∧
      VmaOptions.default.use_hugepages = true ∧
      VmaOptions.default.tx_bufs = 10000 ∧
      VmaOptions.default.rx_bufs = 10000 ∧
      VmaOptions.default.disable_poll_yield = true ∧
      VmaOptions.default.skip_os_select = true ∧
      VmaOptions.default.keep_qp_full = true ∧
      VmaOptions.default.get_cores = []) ∧
    (VmaOptions.low_latency.use_socketxtreme = true ∧
      VmaOptions.low_latency.optimize_for_latency = true ∧
      VmaOptions.low_latency.use_polling = true ∧
      VmaOptions.low_latency.ring_count = 1 ∧
      VmaOptions.low_latency.buffer_size = 8192 ∧
      VmaOptions.low_latency.enable_timestamps = true ∧
      VmaOptions.low_latency.use_hugepages = true ∧
      VmaOptions.low_latency.tx_bufs = 32 ∧
      VmaOptions.low_latency.rx_bufs = 16 ∧
      VmaOptions.low_latency.disable_poll_yield = true ∧
      VmaOptions.low_latency.skip_os_select = true ∧
      VmaOptions.low_latency.keep_qp_full = true ∧
      VmaOptions.low_latency.get_cores = []) ∧
    (VmaOptions.high_throughput.optimize_for_latency = false ∧
      VmaOptions.high_throughput.ring_count = 4 ∧
      1 < VmaOptions.high_throughput.ring_count ∧
      VmaOptions.high_throughput.buffer_size = 65536 ∧
      VmaOptions.high_throughput.enable_timestamps = false ∧
      VmaOptions.high_throughput.tx_bufs = 20000 ∧
      VmaOptions.high_throughput.rx_bufs = 20000 ∧
      VmaOptions.high_throughput.disable_poll_yield = false ∧
      VmaOptions.high_throughput.get_cores = []) := by
  decide

/-- C7 counterexample: the claim that every present positive timeout reaches
the native call as a nonnegative millisecond count fails — for the timeout
`2147483648000000` ns (about 24.9 days) the `u64 → c_int` truncating cast in
`unixnano_to_ms` wraps `floor(t / 10^6) = 2^31` to `-2147483648`, a negative
value (wait indefinitely), not the floor value. -/
theorem spec_C7_counterexample :
    unixnano_to_ms (some 2147483648000000) = -2147483648 ∧
      unixnano_to_ms (some 2147483648000000) < 0 ∧
      2147483648000000 / 1000000 = 2147483648 := by
  refine ⟨by decide, by decide, by decide⟩

/-- C7 amended: an absent timeout is passed as `-1` on both the UDP path
(`unixnano_to_ms`) and the TCP path (`duration_to_ms`); a present timeout of
`t` nanoseconds is passed as `floor(t / 10^6)` milliseconds — on the UDP path
provided `floor(t / 10^6) < 2^31` (beyond that the `as c_int` cast truncates
to 32 bits and can go negative), and on the TCP path unconditionally — and
under that proviso every present timeout reaches the native call as a
nonnegative millisecond count, with a zero timeout passed as `0`. -/
theorem spec_C7_timeout_conversion :
    unixnano_to_ms none = -1 ∧
    duration_to_ms none = -1 ∧
    (∀ t : Nat, t / 1000000 < 2147483648 →
      unixnano_to_ms (some t) = ((t / 1000000 : Nat) : Int) ∧
        0 ≤ unixnano_to_ms (some t)) ∧
    (∀ t : Nat, duration_to_ms (some t) = ((t / 1000000 : Nat) : Int) ∧
      0 ≤ duration_to_ms (some t)) := by
  refine ⟨rfl, rfl, ?_, ?_⟩
  · intro t ht
    have hm : t / 1000000 % 4294967296 = t / 1000000 :=
      Nat.mod_eq_of_lt (by omega)
    constructor
    · simp only [unixnano_to_ms, u64_to_c_int, hm]
      rw [if_pos ht]
    · simp only [unixnano_to_ms, u64_to_c_int, hm]
      rw [if_pos ht]
      omega
  · intro t
    exact ⟨rfl, by simp only [duration_to_ms]; omega⟩

/-- C7 witness: at the concrete timeout of 5 ms (5000000 ns) the amended
conversion contract holds. -/
theorem spec_C7_witness :
    5000000 / 1000000 < 2147483648 ∧
      unixnano_to_ms (some 5000000) = ((5000000 / 1000000 : Nat) : Int) ∧
      0 ≤ unixnano_to_ms (some 5000000) ∧
      duration_to_ms (some 5000000) = ((5000000 / 1000000 : Nat) : Int) :=
  ⟨by decide, (spec_C7_timeout_conversion.2.2.1 5000000 (by decide)).1,
    (spec_C7_timeout_conversion.2.2.1 5000000 (by decide)).2,
    (spec_C7_timeout_conversion.2.2.2 5000000).1⟩

/-- C9 counterexample: for the out-of-range native codes `-11` (UDP) and
`-16` (TCP) the unchecked `mem::transmute` conversion has no defined result —
contrary to the claim that a defined fallback value exists for every
non-success code. -/
theorem spec_C9_counterexample :
    transmuteUdpResult (-11) = none ∧ transmuteTcpResult (-16) = none :=
  ⟨rfl, rfl⟩

/-- C9 amended: the integer-to-enum conversion is well-defined exactly on the
declared discriminant ranges — `0` through `-10` for `UdpResult` and `0`
through `-15` for `TcpResult`; for any code outside those ranges the
unchecked cast has no defined result (undefined behavior), and no fallback
value exists. -/
theorem spec_C9_transmute_domain :
    (∀ c : Int, (transmuteUdpResult c).isSome ↔ (-10 ≤ c ∧ c ≤ 0)) ∧
    (∀ c : Int, (transmuteTcpResult c).isSome ↔ (-15 ≤ c ∧ c ≤ 0)) := by
  constructor
  · intro c
    constructor
    · intro h
      by_contra hc
      have e0 : ¬ c = 0 := by omega
      have e1 : ¬ c = -1 := by omega
      have e2 : ¬ c = -2 := by omega
      have e3 : ¬ c = -3 := by omega
      have e4 : ¬ c = -4 := by omega
      have e5 : ¬ c = -5 := by omega
      have e6 : ¬ c = -6 := by omega
      have e7 : ¬ c = -7 := by omega
      have e8 : ¬ c = -8 := by omega
      have e9 : ¬ c = -9 := by omega
      have e10 : ¬ c = -10 := by omega
      simp only [transmuteUdpResult, if_neg e0, if_neg e1, if_neg e2,
        if_neg e3, if_neg e4, if_neg e5, if_neg e6, if_neg e7, if_neg e8,
        if_neg e9, if_neg e10, Option.isSome_none] at h
      exact Bool.noConfusion h
    · intro h
      obtain ⟨ha, hb⟩ := h
      interval_cases c <;> decide
  · intro c
    constructor
    · intro h
      by_contra hc
      have e0 : ¬ c = 0 := by omega
      have e1 : ¬ c = -1 := by omega
      have e2 : ¬ c = -2 := by omega
      have e3 : ¬ c = -3 := by omega
      have e4 : ¬ c = -4 := by omega
      have e5 : ¬ c = -5 := by omega
      have e6 : ¬ c = -6 := by omega
      have e7 : ¬ c = -7 := by omega
      have e8 : ¬ c = -8 := by omega
      have e9 : ¬ c = -9 := by omega
      have e10 : ¬ c = -10 := by omega
      have e11 : ¬ c = -11 := by omega
      have e12 : ¬ c = -12 := by omega
      have e13 : ¬ c = -13 := by omega
      have e14 : ¬ c = -14 := by omega
      have e15 : ¬ c = -15 := by omega
      simp only [transmuteTcpResult, if_neg e0, if_neg e1, if_neg e2,
        if_neg e3, if_neg e4, if_neg e5, if_neg e6, if_neg e7, if_neg e8,
        if_neg e9, if_neg e10, if_neg e11, if_neg e12, if_neg e13,
        if_neg e14, if_neg e15, Option.isSome_none] at h
      exact Bool.noConfusion h
    · intro h
      obtain ⟨ha, hb⟩ := h
      interval_cases c <;> decide

/-- C4 counterexample: `add_core` performs no sign check, so the reachable
profile `default().add_core(-1)` records the negative core index `-1` — the
claimed invariant "every recorded core element is ≥ 0" is not preserved. -/
theorem spec_C4_counterexample :
    Reachable (VmaOptions.default.add_core (-1)).1 ∧
      (VmaOptions.default.add_core (-1)).1.get_cores = [-1] ∧
      ¬ ∀ c ∈ (VmaOptions.default.add_core (-1)).1.get_cores, 0 ≤ c := by
  refine ⟨Reachable.add_core VmaOptions.default (-1) Reachable.default,
    by decide, by decide⟩

/-- C4 amended: every reachable profile keeps `0 ≤ cpu_cores_count ≤ 128`
and the fixed 128-slot array — no sequence of constructor and core
operations can overflow the list — and the recorded elements are all
nonnegative provided every core index passed to `add_core`/`set_cores` is
itself nonnegative (the code does not validate signs). -/
theorem spec_C4_core_invariants :
    (∀ o : VmaOptions, Reachable o →
      0 ≤ o.cpu_cores_count ∧ o.cpu_cores_count ≤ 128 ∧
        o.cpu_cores.length = 128) ∧
    (∀ o : VmaOptions, ReachableNN o → ∀ c ∈ o.get_cores, 0 ≤ c) := by
  constructor
  · intro o h
    obtain ⟨h1, h2, h3, _⟩ := reachable_wf o h
    exact ⟨h1, h2, h3⟩
  · intro o h
    exact reachableNN_nn o h

/-- C4 witness: the invariants hold at the concrete reachable profiles
`default()` and `default().add_core(2)`. -/
theorem spec_C4_witness :
    (0 ≤ VmaOptions.default.cpu_cores_count ∧
      VmaOptions.default.cpu_cores_count ≤ 128 ∧
      VmaOptions.default.cpu_cores.length = 128) ∧
    (∀ c ∈ (VmaOptions.default.add_core 2).1.get_cores, 0 ≤ c) :=
  ⟨spec_C4_core_invariants.1 VmaOptions.default Reachable.default,
    spec_C4_core_invariants.2 (VmaOptions.default.add_core 2).1
      (ReachableNN.add_core VmaOptions.default 2 (by decide)
        ReachableNN.default)⟩

/-- C6: starting from a profile with an empty core list (as produced by
`clear_cores` or `set_cores([])`: count 0, 128-slot array), adding any list
of at most 128 cores in order succeeds and leaves `get_cores()` equal to
that list in insertion order; and once 128 cores are recorded, a further
`add_core` fails with the capacity error and returns the profile
unchanged. -/
theorem spec_C6_add_core_fold :
    (∀ (o : VmaOptions) (cs : List Int),
      o.cpu_cores.length = 128 → o.cpu_cores_count = 0 → cs.length ≤ 128 →
        (VmaOptions.addAll o cs).2 = Except.ok () ∧
          (VmaOptions.addAll o cs).1.get_cores = cs) ∧
    (∀ (o : VmaOptions) (c : Int), o.cpu_cores_count = 128 →
      o.add_core c = (o, Except.error "Maximum number of CPU cores reached")) := by
  constructor
  · intro o cs hlen hcount hcs
    obtain ⟨h1, h2⟩ := addAll_ok cs o hlen (by omega) (by rw [hcount]; omega)
    refine ⟨h1, ?_⟩
    rw [h2]
    simp [VmaOptions.get_cores, hcount]
  · intro o c hcount
    exact add_core_ge o c (by omega)

/-- C6 witness: from the cleared default profile, adding `[1, 2, 3]` yields
exactly `[1, 2, 3]`, and on a profile with 128 recorded cores `add_core 5`
fails and leaves the profile unchanged. -/
theorem spec_C6_witness :
    ((VmaOptions.addAll VmaOptions.default.clear_cores [1, 2, 3]).2 =
        Except.ok () ∧
      (VmaOptions.addAll VmaOptions.default.clear_cores [1, 2, 3]).1.get_cores =
        [1, 2, 3]) ∧
    ({ VmaOptions.default with cpu_cores_count := 128 } : VmaOptions).add_core 5 =
      ({ VmaOptions.default with cpu_cores_count := 128 },
        Except.error "Maximum number of CPU cores reached") :=
  ⟨spec_C6_add_core_fold.1 VmaOptions.default.clear_cores [1, 2, 3]
      (by decide) (by decide) (by decide),
    spec_C6_add_core_fold.2 { VmaOptions.default with cpu_cores_count := 128 }
      5 rfl⟩

/-- C8: decoding a native address structure whose `sin_addr` and `sin_port`
fields hold an IPv4 address and a port in network byte order yields exactly
the original pair — `sockaddr_to_rust` is a left inverse of the big-endian
address encoding, for arbitrary octets and the full port range. -/
theorem spec_C8_addr_roundtrip (a b c d p : Nat)
    (ha : a < 256) (hb : b < 256) (hc : c < 256) (hd : d < 256)
    (_hp : p < 65536) :
    sockaddr_to_rust (encode_sockaddr (a, b, c, d) p) =
      { ip := (a, b, c, d), port := p } := by
  simp only [sockaddr_to_rust, encode_sockaddr, fromBe32, fromBe16,
    ipv4FromU32, SocketAddr.mk.injEq, Prod.mk.injEq]
  refine ⟨⟨?_, ?_, ?_, ?_⟩, ?_⟩ <;> omega

/-- C8 witness: the round trip holds at the concrete address
`192.168.1.100:5001`. -/
theorem spec_C8_witness :
    (192 : Nat) < 256 ∧
      sockaddr_to_rust (encode_sockaddr (192, 168, 1, 100) 5001) =
        { ip := (192, 168, 1, 100), port := 5001 } :=
  ⟨by decide, spec_C8_addr_roundtrip 192 168 1 100 5001 (by decide)
    (by decide) (by decide) (by decide) (by decide)⟩

/-- C10: for every `VmaOptions` value with `0 ≤ cpu_cores_count ≤ 128`, the
fixed 128-slot array, and zeros in every slot past the count (as holds for
all values built through the public constructors and core operations),
deserializing the serialization yields the value back. -/
theorem spec_C10_serde_roundtrip (o : VmaOptions)
    (h0 : 0 ≤ o.cpu_cores_count) (h128 : o.cpu_cores_count ≤ 128)
    (hlen : o.cpu_cores.length = 128)
    (hzero : ∀ c ∈ o.cpu_cores.drop o.cpu_cores_count.toNat, c = 0) :
    deserializeVmaOptions (serializeVmaOptions o) = Except.ok o := by
  have hn : o.cpu_cores_count.toNat ≤ 128 := by omega
  have htake_len :
      (o.cpu_cores.take o.cpu_cores_count.toNat).length =
        o.cpu_cores_count.toNat := by
    rw [List.length_take, hlen]
    exact Nat.min_eq_left hn
  have hdrop := list_eq_replicate_zero _ hzero
  rw [List.length_drop, hlen] at hdrop
  have hwc := writeCoresFrom_spec
    (o.cpu_cores.take o.cpu_cores_count.toNat)
    (List.replicate 128 (0 : Int)) 0
    (by rw [htake_len]; simp [hn])
  rw [htake_len] at hwc
  simp only [List.take_zero, List.nil_append, Nat.zero_add,
    list_drop_replicate] at hwc
  rw [← hdrop, List.take_append_drop] at hwc
  have hcount :
      (((o.cpu_cores.take o.cpu_cores_count.toNat).length : Nat) : Int) =
        o.cpu_cores_count := by
    rw [htake_len]
    omega
  simp only [deserializeVmaOptions, serializeVmaOptions, VmaOptions.default]
  rw [if_neg (by rw [htake_len]; omega)]
  rw [hwc, hcount]

/-- C10 witness: the round trip holds at the concrete profile
`low_latency()` with cores 0 and 1 added (the repository's own test
vector). -/
theorem spec_C10_witness :
    (0 ≤ ((VmaOptions.low_latency.add_core 0).1.add_core 1).1.cpu_cores_count ∧
      ((VmaOptions.low_latency.add_core 0).1.add_core 1).1.cpu_cores_count ≤ 128 ∧
      ((VmaOptions.low_latency.add_core 0).1.add_core 1).1.cpu_cores.length = 128) ∧
    deserializeVmaOptions
        (serializeVmaOptions ((VmaOptions.low_latency.add_core 0).1.add_core 1).1) =
      Except.ok ((VmaOptions.low_latency.add_core 0).1.add_core 1).1 :=
  ⟨⟨by decide, by decide, by decide⟩,
    spec_C10_serde_roundtrip ((VmaOptions.low_latency.add_core 0).1.add_core 1).1
      (by decide) (by decide) (by decide) (by decide)⟩
